import Mathlib

/-!
Shallow embedding of the kintone backup scheduler core — the backup
manager (record cleaning, archive codec, backup and restore flows), the
kintone REST client (retry and backoff policy) and the SQLite metadata
store (delete cascade) — together with proofs settling the frozen
specification claims about them.
-/

/-- A JSON-like value as manipulated by the JavaScript source. kintone
records are objects mapping field codes to field objects such as
`\x7b type: "SINGLE_LINE_TEXT", value: "a" \x7d`; object entries are kept in
insertion order. -/
inductive JsValue where
  | str : String → JsValue
  | num : Int → JsValue
  | nul : JsValue
  | arr : List JsValue → JsValue
  | obj : List (String × JsValue) → JsValue

/-- A kintone record as stored in an archive: an ordered object, i.e. a
list of field-code / field-value entries. -/
abbrev KRecord := List (String × JsValue)

/-- Property lookup on a JavaScript object (first entry with the given
key, as JS objects have unique keys). -/
def propLookup : List (String × JsValue) → String → Option JsValue
  | [], _ => none
  | (k, v) :: rest, code => if k = code then some v else propLookup rest code

/-- JavaScript truthiness of a value: empty strings, zero and null are
falsy; arrays and objects are always truthy. -/
def jsTruthy : JsValue → Bool
  | JsValue.str s => !(s == "")
  | JsValue.num n => !(n == 0)
  | JsValue.nul => false
  | JsValue.arr _ => true
  | JsValue.obj _ => true

/-- JavaScript String(v) for the primitive values that reach it in the
source; the record-number values stringified there are strings or
numbers coming out of kintone field objects. -/
def jsStringOfValue : JsValue → String
  | JsValue.str s => s
  | JsValue.num n => toString n
  | _ => ""

/-- kintone system fields excluded on restore (SYSTEM_FIELDS in
backupManager). -/
def SYSTEM_FIELDS : List String :=
  ["RECORD_NUMBER", "__ID__", "__REVISION__", "CREATOR", "CREATED_TIME",
   "MODIFIER", "UPDATED_TIME", "STATUS", "STATUS_ASSIGNEE", "$id", "$revision"]

/-- Read-only field types excluded on restore (READONLY_FIELD_TYPES in
backupManager). -/
def READONLY_FIELD_TYPES : List String :=
  ["RECORD_NUMBER", "CREATOR", "CREATED_TIME", "MODIFIER", "UPDATED_TIME",
   "STATUS", "STATUS_ASSIGNEE", "__ID__", "__REVISION__", "CALC", "CATEGORY"]

/-- The type tag the cleaning loop reads off a field value: present when
the value is an object whose type property is a truthy string (the
source checks fieldValue, typeof fieldValue, fieldValue.type before
comparing the tag against the read-only list, which contains only
strings, so non-string tags never match it). -/
def typeTag : JsValue → Option String
  | JsValue.obj entries =>
    match propLookup entries "type" with
    | some (JsValue.str t) => if t = "" then none else some t
    | _ => none
  | _ => none

/-- Whether one top-level entry survives the cleaning loop of
cleanRecordForRestore: dropped when its field code is a system field or
its type tag is a read-only type. -/
def keepField (code : String) (v : JsValue) : Bool :=
  !(SYSTEM_FIELDS.contains code) &&
    (match typeTag v with
     | some t => !(READONLY_FIELD_TYPES.contains t)
     | none => true)

/-- BackupManager.cleanRecordForRestore: copies the record, skipping
every top-level field whose code is in SYSTEM_FIELDS or whose type tag
is in READONLY_FIELD_TYPES. -/
def cleanRecordForRestore (record : KRecord) : KRecord :=
  record.filter fun p => keepField p.1 p.2

/-- One object entry is banned when its code is a system field or its
type tag is read-only — exactly the fields the spec says must never be
sent back to the service. -/
def isBannedField (code : String) (v : JsValue) : Bool :=
  SYSTEM_FIELDS.contains code ||
    (match typeTag v with
     | some t => READONLY_FIELD_TYPES.contains t
     | none => false)

mutual

/-- Whether a value contains, at any depth, an object entry that is a
banned field (used to state the claim about cleaned records). -/
def hasBannedValue : JsValue → Bool
  | JsValue.arr vs => hasBannedInList vs
  | JsValue.obj es => hasBannedEntries es
  | _ => false

def hasBannedInList : List JsValue → Bool
  | [] => false
  | v :: rest => hasBannedValue v || hasBannedInList rest

def hasBannedEntries : List (String × JsValue) → Bool
  | [] => false
  | (code, v) :: rest =>
    isBannedField code v || hasBannedValue v || hasBannedEntries rest

end

/-- One logical entry of the backup zip container: an entry name and its
JSON payload (the JSON text serialization itself is the standard
library round trip, modelled as the identity on JSON values). -/
structure ZipEntry where
  name : String
  content : JsValue

/-- The records.json payload: JSON.stringify of the captured record
array, verbatim and in order. -/
def encodeRecords (records : List KRecord) : JsValue :=
  JsValue.arr (records.map JsValue.obj)

/-- Reading a parsed records.json payload back as a record list; any
element that is not an object makes the spread into the record array
fail. -/
def decodeRecordList : List JsValue → Option (List KRecord)
  | [] => some []
  | JsValue.obj e :: rest => (decodeRecordList rest).map fun rs => e :: rs
  | _ => none

/-- JSON.parse of a records.json entry followed by the push spread: the
payload must be an array of objects. -/
def parseRecordsJson : JsValue → Option (List KRecord)
  | JsValue.arr vs => decodeRecordList vs
  | _ => none

/-- The backup_metadata.json object written by createBackupZip: schema
version, app id, record count, capture date and the best-effort field
schema snapshot (null when unavailable). -/
def buildBackupMetadata (appId : String) (recordCount : Nat)
    (backupDate : String) (fieldProperties : Option JsValue) : JsValue :=
  JsValue.obj
    [("schemaVersion", JsValue.str "1.0.0"),
     ("appId", JsValue.str appId),
     ("recordCount", JsValue.num recordCount),
     ("backupDate", JsValue.str backupDate),
     ("version", JsValue.str "1.0"),
     ("fieldProperties", fieldProperties.getD JsValue.nul)]

/-- BackupManager.createBackupZip: the container holds exactly two
logical entries, records.json (the captured records, no reordering) and
backup_metadata.json. -/
def createBackupZip (appId : String) (records : List KRecord)
    (backupDate : String) (fieldProperties : Option JsValue) : List ZipEntry :=
  [⟨"records.json", encodeRecords records⟩,
   ⟨"backup_metadata.json",
     buildBackupMetadata appId records.length backupDate fieldProperties⟩]

/-- The entry loop of BackupManager.extractBackupZip: entries named
records.json are parsed and appended to the accumulated record list in
container order, every other entry is drained and ignored; a parse
failure rejects the whole extraction. -/
def extractEntries : List ZipEntry → List KRecord → Option (List KRecord)
  | [], acc => some acc
  | e :: rest, acc =>
    if e.name = "records.json" then
      match parseRecordsJson e.content with
      | some rs => extractEntries rest (acc ++ rs)
      | none => none
    else extractEntries rest acc

/-- BackupManager.extractBackupZip on a container. -/
def extractBackupZip (entries : List ZipEntry) : Option (List KRecord) :=
  extractEntries entries []

/-- Outcome row of the restore batch application (status is the literal
string stored by the source: 成功, 部分成功 or 失敗). -/
structure RestoreApplyResult where
  status : String
  updatedCount : Nat
  addedCount : Nat
deriving DecidableEq

/-- The batch application and status derivation of
BackupManager.restoreBackup: each non-empty partition is attempted
independently; a failed batch call sets its failed flag and leaves its
count at zero, a successful one sets its count to the partition size
(addAllRecords returns one id per added record); then
status = 部分成功 when (updateFailed or addFailed) and some count is
positive, else 失敗 when updateFailed and addFailed, else 成功. -/
def applyRestoreBatches (updates : List (String × KRecord)) (adds : List KRecord)
    (updateCallFails addCallFails : Bool) : RestoreApplyResult :=
  let updateFailed := decide (updates.length > 0) && updateCallFails
  let updatedCount := if updates.length > 0 && !updateCallFails then updates.length else 0
  let addFailed := decide (adds.length > 0) && addCallFails
  let addedCount := if adds.length > 0 && !addCallFails then adds.length else 0
  let status :=
    if (updateFailed || addFailed) && (decide (addedCount > 0) || decide (updatedCount > 0)) then
      "部分成功"
    else if updateFailed && addFailed then "失敗"
    else "成功"
  ⟨status, updatedCount, addedCount⟩

/-- The truthiness-guarded field-value read used when deriving a record
number: record[code] must be present and truthy, and its value property
must be present and truthy (a non-object field has no value property). -/
def truthyFieldValue (record : KRecord) (code : String) : Option JsValue :=
  match propLookup record code with
  | some f =>
    if jsTruthy f then
      match f with
      | JsValue.obj es =>
        match propLookup es "value" with
        | some v => if jsTruthy v then some v else none
        | none => none
      | _ => none
    else none
  | none => none

/-- The record-number derivation of BackupManager.restoreBackup: prefer
String of the dollar-id field value, fall back to String of the
レコード番号 field value, else null. -/
def deriveRecordNumber (record : KRecord) : Option String :=
  match truthyFieldValue record "$id" with
  | some v => some (jsStringOfValue v)
  | none =>
    match truthyFieldValue record "レコード番号" with
    | some v => some (jsStringOfValue v)
    | none => none

/-- The partition loop of BackupManager.restoreBackup: walking the
cleaned records together with the derived key list, a record whose key
maps to a truthy identifier (in JS a non-empty string) is pushed onto
updates with that identifier, every other record onto adds. An index
past the end of the key list reads undefined, which is never truthy. -/
def partitionForRestore (mapping : String → Option String) :
    List KRecord → List (Option String) → List (String × KRecord) × List KRecord
  | [], _ => ([], [])
  | rec :: cs, [] =>
    let rest := partitionForRestore mapping cs []
    (rest.1, rec :: rest.2)
  | rec :: cs, num :: ns =>
    let rest := partitionForRestore mapping cs ns
    match num.bind mapping with
    | some id =>
      if id = "" then (rest.1, rec :: rest.2) else ((id, rec) :: rest.1, rest.2)
    | none => (rest.1, rec :: rest.2)

/-- The restore pipeline from the selected records to the two
partitions: clean every record, derive every record number from the
original records, then partition. -/
def restorePartitions (records : List KRecord) (mapping : String → Option String) :
    List (String × KRecord) × List KRecord :=
  partitionForRestore mapping (records.map cleanRecordForRestore)
    (records.map deriveRecordNumber)

/-- RETRY_CONFIG.maxRetries in kintoneClient. -/
def maxRetries : Nat := 5

/-- RETRY_CONFIG.initialDelay in milliseconds. -/
def initialDelay : Nat := 1000

/-- RETRY_CONFIG.maxDelay in milliseconds. -/
def maxDelay : Nat := 32000

/-- RETRY_CONFIG.backoffMultiplier. -/
def backoffMultiplier : Nat := 2

/-- RETRY_CONFIG.retryableStatusCodes. -/
def retryableStatusCodes : List Nat := [429, 500, 502, 503, 504]

/-- The base exponential backoff computed by the retryDelay callback:
min of initialDelay times backoffMultiplier to the power retryCount - 1,
and maxDelay. -/
def retryDelayBase (retryCount : Nat) : Nat :=
  min (initialDelay * backoffMultiplier ^ (retryCount - 1)) maxDelay

/-- The value returned by the retryDelay callback: the base delay plus
symmetric jitter of up to twenty percent, with the random draw
Math.random() modelled as a rational jitterDraw in the unit interval
(jitter = delay times 0.2 times (2 draw - 1)). -/
def retryDelayWithJitter (retryCount : Nat) (jitterDraw : ℚ) : ℚ :=
  let delay : ℚ := (retryDelayBase retryCount : ℚ)
  delay + delay * (1 / 5) * (2 * jitterDraw - 1)

/-- The error object seen by the retryCondition callback: the response
status when a response exists, and the parsed Retry-After header in
seconds when present. -/
structure HttpError where
  status : Option Nat
  retryAfterSeconds : Option Nat
  isNetworkOrIdempotent : Bool
deriving DecidableEq

/-- The wait hint the retryCondition callback computes for a 429
response carrying a Retry-After header: waitTime = retryAfter * 1000
milliseconds. The source logs this value and returns true, but never
passes it to the delay machinery. -/
def rateLimitWaitHintMs (e : HttpError) : Option Nat :=
  match e.status, e.retryAfterSeconds with
  | some 429, some s => some (s * 1000)
  | _, _ => none

/-- The retryCondition callback result: retry on a 429 with a wait
hint, on a network or idempotent-request error, or on a retryable
status code. -/
def retryCondition (e : HttpError) : Bool :=
  (match rateLimitWaitHintMs e with
   | some _ => true
   | none =>
     e.isNetworkOrIdempotent ||
       (match e.status with
        | some s => retryableStatusCodes.contains s
        | none => false))

/-- The delay axios-retry actually waits before the next attempt: the
retryDelay callback value, which is computed from the retry count and
the jitter draw alone — the error (and with it the Retry-After hint) is
not consulted, mirroring the source where the computed waitTime is only
logged. -/
def actualRetryDelayMs (_e : HttpError) (retryCount : Nat) (jitterDraw : ℚ) : ℚ :=
  retryDelayWithJitter retryCount jitterDraw

/-- A row of the backups table (fields relevant to the delete cascade). -/
structure BackupDbRow where
  id : Nat
  app_id : String
deriving DecidableEq

/-- A row of the record_index table: the per-record change marker. -/
structure MarkerRow where
  app_id : String
  record_id : String
  updated_time : String
  last_backup_id : Option Nat
deriving DecidableEq

/-- A row of the apps table (the differential baseline columns). -/
structure AppRow where
  app_id : String
  last_backup_datetime : Option String
  last_full_backup_datetime : Option String
deriving DecidableEq

/-- The metadata store state: the three tables of database.js. -/
structure DbState where
  backups : List BackupDbRow
  record_index : List MarkerRow
  apps : List AppRow
deriving DecidableEq

/-- DELETE FROM record_index WHERE last_backup_id = backupId. -/
def deleteMarkersStmt (backupId : Nat) (st : DbState) : DbState :=
  { st with record_index :=
      st.record_index.filter fun m => !(m.last_backup_id == some backupId) }

/-- DELETE FROM backups WHERE id = backupId. -/
def deleteBackupRowStmt (backupId : Nat) (st : DbState) : DbState :=
  { st with backups := st.backups.filter fun b => !(b.id == backupId) }

/-- DatabaseManager.deleteBackup: first the marker delete, then the
backup-row delete, run back to back. -/
def deleteBackup (backupId : Nat) (st : DbState) : DbState :=
  deleteBackupRowStmt backupId (deleteMarkersStmt backupId st)

/-- DatabaseManager.getLastBackupDatetime: the two baseline columns of
the matching apps row, or no row. -/
def getLastBackupDatetime (st : DbState) (appId : String) :
    Option (Option String × Option String) :=
  (st.apps.find? fun a => a.app_id == appId).map
    fun a => (a.last_backup_datetime, a.last_full_backup_datetime)

/-- The two SQL statements issued by DatabaseManager.deleteBackup, as
individual state transformers. -/
inductive DeleteStmt where
  | deleteMarkers (backupId : Nat)
  | deleteBackupRow (backupId : Nat)
deriving DecidableEq

def applyStmt : DeleteStmt → DbState → DbState
  | DeleteStmt.deleteMarkers i, st => deleteMarkersStmt i st
  | DeleteStmt.deleteBackupRow i, st => deleteBackupRowStmt i st

/-- The statement sequence of DatabaseManager.deleteBackup, in source
order. -/
def deleteBackupStmts (backupId : Nat) : List DeleteStmt :=
  [DeleteStmt.deleteMarkers backupId, DeleteStmt.deleteBackupRow backupId]

/-- Running the first k statements of a sequence. deleteBackup issues
its statements without a surrounding transaction (the transaction
helper of database.js is not used there), so in better-sqlite3 each
statement commits on its own: if execution stops before statement k,
the effects of the first k statements stay durably visible. -/
def runStmtsUpTo (stmts : List DeleteStmt) (k : Nat) (st : DbState) : DbState :=
  (stmts.take k).foldl (fun s stmt => applyStmt stmt s) st

/-- The backup kind requested of backupApp. -/
inductive BackupType where
  | full
  | differential
deriving DecidableEq

/-- The record request backupApp issues: getAllRecords with no
condition, or getAllRecords filtered to records updated strictly after
the baseline (getDifferentialRecords). -/
inductive FetchRequest where
  | allRecords
  | changedSince (baseline : String)
deriving DecidableEq

/-- The record-set determination of backupApp: differential reads the
last backup row; only when the row exists and its last_backup_datetime
is set does it fetch changed records since that baseline (recording it
as diff base), otherwise — first backup of the app — it silently falls
back to the full fetch; full always fetches everything. -/
def recordsRequest : BackupType → Option (Option String) → FetchRequest × Option String
  | BackupType.differential, some (some d) => (FetchRequest.changedSince d, some d)
  | BackupType.differential, some none => (FetchRequest.allRecords, none)
  | BackupType.differential, none => (FetchRequest.allRecords, none)
  | BackupType.full, _ => (FetchRequest.allRecords, none)

/-- The mutable columns of one backups row that backupApp writes. -/
structure RunRow where
  app_name : String
  record_count : Option Nat
  file_path : Option String
  status : String
  error_details : Option String
  diff_base_datetime : Option String
deriving DecidableEq

/-- The row as inserted at run start: status 実行中, every derived
column still null. -/
def initialRunRow : RunRow :=
  { app_name := "", record_count := none, file_path := none,
    status := "実行中", error_details := none, diff_base_datetime := none }

/-- Externally visible side effects of a backup run that the claims
talk about. -/
inductive RunEffect where
  | archiveWrite
  | attachmentFetch
deriving DecidableEq

/-- The environment a single backupApp invocation runs against: the
getApp result, the stored last-backup row, the record fetch result per
request, the zip write result (uncompressed size or failure), the
generated zip file name, and failure injection for the steps between
the zip write and the final row update (attachment walk, stat, marker
upserts) and for the steps after it (updating the app baseline). -/
structure BackupEnv where
  appName : Except String String
  lastBackupRow : Option (Option String)
  fetch : FetchRequest → Except String (List KRecord)
  zipFileName : String
  zip : Except String Nat
  midFail : Option String
  postFail : Option String

/-- BackupManager.backupApp as a state function: the terminal backups
row it leaves behind and the effects it performed. Any thrown error is
caught by the handler that stamps the row 失敗 with the error detail,
leaving the other columns as last written. -/
def backupAppWithRequest (env : BackupEnv) (req : FetchRequest × Option String) :
    RunRow × List RunEffect :=
  match env.appName with
  | Except.error e =>
    ({ initialRunRow with
        status := "失敗", error_details := some e }, [])
  | Except.ok name =>
    match env.fetch req.1 with
    | Except.error e =>
      ({ initialRunRow with
          app_name := name, status := "失敗", error_details := some e }, [])
    | Except.ok records =>
      if records.length = 0 then
        ({ initialRunRow with
            app_name := name, status := "成功", record_count := some 0,
            diff_base_datetime := req.2 }, [])
      else
        match env.zip with
        | Except.error e =>
          ({ initialRunRow with
              app_name := name, status := "失敗", error_details := some e },
           [RunEffect.archiveWrite])
        | Except.ok _originalSize =>
          match env.midFail with
          | some e =>
            ({ initialRunRow with
                app_name := name, status := "失敗", error_details := some e },
             [RunEffect.archiveWrite, RunEffect.attachmentFetch])
          | none =>
            let successRow : RunRow :=
              { app_name := name, record_count := some records.length,
                file_path := some env.zipFileName, status := "成功",
                error_details := none, diff_base_datetime := req.2 }
            match env.postFail with
            | some e =>
              ({ successRow with
                  status := "失敗", error_details := some e },
               [RunEffect.archiveWrite, RunEffect.attachmentFetch])
            | none =>
              (successRow, [RunEffect.archiveWrite, RunEffect.attachmentFetch])

/-- BackupManager.backupApp: determine the record request from the
backup kind and the stored baseline, then run the rest of the flow. -/
def backupApp (env : BackupEnv) (backupType : BackupType) : RunRow × List RunEffect :=
  backupAppWithRequest env (recordsRequest backupType env.lastBackupRow)

theorem decodeRecordList_map_obj (rs : List KRecord) :
    decodeRecordList (rs.map JsValue.obj) = some rs := by
  induction rs with
  | nil => rfl
  | cons r rest ih => simp [decodeRecordList, ih]

/-- Claim C2: records written through the archive codec and re-extracted
from the resulting container equal the original record list in order and
content. -/
theorem archive_roundtrip (appId : String) (records : List KRecord)
    (backupDate : String) (fieldProperties : Option JsValue) :
    extractBackupZip (createBackupZip appId records backupDate fieldProperties) =
      some records := by
  simp [extractBackupZip, createBackupZip, extractEntries, parseRecordsJson,
    encodeRecords, decodeRecordList_map_obj]

/-- A one-field record used as a concrete restore update payload. -/
def exUpdateRecord : KRecord :=
  [("Title", JsValue.obj
    [("type", JsValue.str "SINGLE_LINE_TEXT"), ("value", JsValue.str "a")])]

/-- Claim C1 (code bug): a restore whose only attempted partition is the
update partition, and whose update call fails, is stamped 成功 by the
status derivation, although the spec derives failure when every
attempted partition failed. -/
theorem restore_sole_failed_partition_reports_success :
    (applyRestoreBatches [("101", exUpdateRecord)] [] true false).status = "成功" ∧
    (applyRestoreBatches [("101", exUpdateRecord)] [] true false).updatedCount = 0 ∧
    (applyRestoreBatches [("101", exUpdateRecord)] [] true false).addedCount = 0 ∧
    (applyRestoreBatches [("101", exUpdateRecord)] [] true false).status ≠ "失敗" := by
  refine ⟨rfl, rfl, rfl, ?_⟩
  decide

/-- A record holding one subtable field whose row contains a computed
(CALC) cell. -/
def subtableRecord : KRecord :=
  [("Table", JsValue.obj
    [("type", JsValue.str "SUBTABLE"),
     ("value", JsValue.arr
       [JsValue.obj
         [("id", JsValue.str "1"),
          ("value", JsValue.obj
            [("Total", JsValue.obj
              [("type", JsValue.str "CALC"), ("value", JsValue.str "42")])])]])])]

/-- Claim C3 counterexample: cleaning keeps the subtable field
wholesale, so the computed (CALC) cell nested inside it — a read-only
type at a depth where it can occur — survives into the cleaned record. -/
theorem cleanRecord_keeps_nested_readonly :
    cleanRecordForRestore subtableRecord = subtableRecord ∧
    hasBannedEntries (cleanRecordForRestore subtableRecord) = true :=
  ⟨rfl, rfl⟩

/-- Claim C3 (amended): the cleaned record contains no top-level field
whose code is a system-managed field and no top-level field whose type
tag is a read-only type; nested occurrences inside retained container
values are not stripped. -/
theorem cleanRecord_strips_top_level (record : KRecord) (code : String) (v : JsValue)
    (h : (code, v) ∈ cleanRecordForRestore record) :
    SYSTEM_FIELDS.contains code = false ∧
      ∀ t, typeTag v = some t → READONLY_FIELD_TYPES.contains t = false := by
  have hk : keepField code v = true := (List.mem_filter.mp h).2
  unfold keepField at hk
  rcases (Bool.and_eq_true _ _).mp hk with ⟨h1, h2⟩
  refine ⟨by simpa using h1, ?_⟩
  intro t ht
  rw [ht] at h2
  simpa using h2

theorem cleanRecord_strips_top_level_witness :
    SYSTEM_FIELDS.contains "Title" = false ∧
      ∀ t, typeTag (JsValue.obj
        [("type", JsValue.str "SINGLE_LINE_TEXT"), ("value", JsValue.str "a")]) = some t →
        READONLY_FIELD_TYPES.contains t = false :=
  cleanRecord_strips_top_level exUpdateRecord "Title" _
    (List.mem_singleton.mpr rfl)

/-- A 429 response carrying a Retry-After header of 30 seconds. -/
def ex429 : HttpError :=
  { status := some 429, retryAfterSeconds := some 30, isNetworkOrIdempotent := false }

/-- Claim C5 (code bug): for a rate-limit response with an explicit wait
hint the retry machinery still waits the exponential-backoff delay — the
hint is computed and logged by retryCondition but never reaches the
delay callback. With hint 30 s on the first retry and a centered jitter
draw, the delay waited is 1000 ms, not the hinted 30000 ms. -/
theorem rateLimit_hint_ignored :
    retryCondition ex429 = true ∧
    rateLimitWaitHintMs ex429 = some 30000 ∧
    actualRetryDelayMs ex429 1 (1 / 2) = 1000 ∧
    ((1000 : ℚ) ≠ 30000) := by
  refine ⟨rfl, rfl, ?_, by norm_num⟩
  norm_num [actualRetryDelayMs, retryDelayWithJitter, retryDelayBase,
    initialDelay, maxDelay, backoffMultiplier]

/-- Claim C10: the base backoff delay is non-decreasing in the attempt
number (constant once it reaches the cap), and for every jitter draw in
the unit interval the returned delay lies within plus or minus twenty
percent of the base. -/
theorem backoff_monotone_and_jitter_bounded (m n : Nat) (j : ℚ)
    (hmn : m ≤ n) (h0 : 0 ≤ j) (h1 : j ≤ 1) :
    retryDelayBase m ≤ retryDelayBase n ∧
    (4 / 5 : ℚ) * retryDelayBase n ≤ retryDelayWithJitter n j ∧
    retryDelayWithJitter n j ≤ (6 / 5 : ℚ) * retryDelayBase n := by
  refine ⟨?_, ?_, ?_⟩
  · unfold retryDelayBase
    exact min_le_min
      (Nat.mul_le_mul_left _
        (Nat.pow_le_pow_right (by decide) (Nat.sub_le_sub_right hmn 1)))
      le_rfl
  · unfold retryDelayWithJitter
    have hb : (0 : ℚ) ≤ (retryDelayBase n : ℚ) := Nat.cast_nonneg _
    nlinarith [mul_nonneg hb h0, mul_le_mul_of_nonneg_left h1 hb]
  · unfold retryDelayWithJitter
    have hb : (0 : ℚ) ≤ (retryDelayBase n : ℚ) := Nat.cast_nonneg _
    nlinarith [mul_nonneg hb h0, mul_le_mul_of_nonneg_left h1 hb]

theorem backoff_monotone_and_jitter_bounded_witness :
    retryDelayBase 1 ≤ retryDelayBase 2 ∧
    (4 / 5 : ℚ) * retryDelayBase 2 ≤ retryDelayWithJitter 2 0 ∧
    retryDelayWithJitter 2 0 ≤ (6 / 5 : ℚ) * retryDelayBase 2 :=
  backoff_monotone_and_jitter_bounded 1 2 0 (by norm_num) le_rfl (by norm_num)

/-- Claim C8: after the delete cascade no marker referencing the deleted
run remains, the backups row itself is gone, markers of other runs are
untouched, and the apps table — hence every differential baseline — is
unchanged. -/
theorem deleteBackup_cascade (st : DbState) (backupId : Nat) :
    (∀ m, m ∈ (deleteBackup backupId st).record_index →
      m.last_backup_id ≠ some backupId) ∧
    (∀ b, b ∈ (deleteBackup backupId st).backups → b.id ≠ backupId) ∧
    (∀ m, m ∈ st.record_index → m.last_backup_id ≠ some backupId →
      m ∈ (deleteBackup backupId st).record_index) ∧
    (deleteBackup backupId st).apps = st.apps ∧
    (∀ appId, getLastBackupDatetime (deleteBackup backupId st) appId =
      getLastBackupDatetime st appId) := by
  refine ⟨?_, ?_, ?_, rfl, fun _ => rfl⟩
  · intro m hm
    have := (List.mem_filter.mp hm).2
    simpa using this
  · intro b hb
    have := (List.mem_filter.mp hb).2
    simpa using this
  · intro m hm hid
    exact List.mem_filter.mpr ⟨hm, by simpa using hid⟩

/-- Two backup runs over the same app, run 1 with one marker and run 2
with another. -/
def exDb : DbState :=
  { backups := [{ id := 1, app_id := "5" }, { id := 2, app_id := "5" }],
    record_index :=
      [{ app_id := "5", record_id := "10", updated_time := "2024-01-01",
         last_backup_id := some 1 },
       { app_id := "5", record_id := "11", updated_time := "2024-02-01",
         last_backup_id := some 2 }],
    apps := [{ app_id := "5", last_backup_datetime := some "2024-02-01",
               last_full_backup_datetime := some "2024-01-01" }] }

def exMarker2 : MarkerRow :=
  { app_id := "5", record_id := "11", updated_time := "2024-02-01",
    last_backup_id := some 2 }

theorem deleteBackup_cascade_witness :
    exMarker2 ∈ (deleteBackup 1 exDb).record_index ∧
    (deleteBackup 1 exDb).apps = exDb.apps :=
  ⟨(deleteBackup_cascade exDb 1).2.2.1 exMarker2 (by decide) (by decide),
   (deleteBackup_cascade exDb 1).2.2.2.1⟩

/-- A store with one backup run and one marker referencing it. -/
def exDb9 : DbState :=
  { backups := [{ id := 1, app_id := "5" }],
    record_index :=
      [{ app_id := "5", record_id := "10", updated_time := "2024-01-01",
         last_backup_id := some 1 }],
    apps := [] }

/-- Claim C9 (code bug): the delete-backup cascade is not atomic — if
execution stops after the first of its two auto-committed statements,
the visible state has the marker rows removed but the backups row still
present, a state equal neither to the initial one nor to the final one. -/
theorem deleteBackup_cascade_not_atomic :
    runStmtsUpTo (deleteBackupStmts 1) 1 exDb9 ≠ exDb9 ∧
    runStmtsUpTo (deleteBackupStmts 1) 1 exDb9 ≠
      runStmtsUpTo (deleteBackupStmts 1) 2 exDb9 := by
  decide

/-- Claim C4: a terminal row with status 成功 and a positive record
count always carries a file path, and a terminal row with record count
zero never does — and in that empty case no archive write and no
attachment fetch happened. -/
theorem backupApp_archive_invariant (env : BackupEnv) (bt : BackupType) :
    ((backupApp env bt).1.status = "成功" →
      ∀ n, (backupApp env bt).1.record_count = some n → 0 < n →
        (backupApp env bt).1.file_path ≠ none) ∧
    ((backupApp env bt).1.record_count = some 0 →
      (backupApp env bt).1.file_path = none ∧
      RunEffect.archiveWrite ∉ (backupApp env bt).2 ∧
      RunEffect.attachmentFetch ∉ (backupApp env bt).2) := by
  unfold backupApp backupAppWithRequest
  rcases env.appName with e | name
  · simp [initialRunRow]
  · rcases env.fetch (recordsRequest bt env.lastBackupRow).1 with e | records
    · simp [initialRunRow]
    · by_cases hr : records.length = 0
      · simp [hr, initialRunRow]
      · rcases env.zip with e | osize
        · simp [hr, initialRunRow]
        · rcases env.midFail with _ | e
          · rcases env.postFail with _ | e
            · simp [hr, initialRunRow]
            · simp [hr, initialRunRow]
          · simp [hr, initialRunRow]

/-- An environment whose app exists and whose fetch returns no records. -/
def exEnvEmpty : BackupEnv :=
  { appName := Except.ok "顧客管理",
    lastBackupRow := some (some "2024-01-01"),
    fetch := fun _ => Except.ok [],
    zipFileName := "app_5_2024_full.zip",
    zip := Except.ok 0,
    midFail := none,
    postFail := none }

/-- An environment whose fetch returns one record and whose run
succeeds end to end. -/
def exEnvOne : BackupEnv :=
  { appName := Except.ok "顧客管理",
    lastBackupRow := none,
    fetch := fun _ => Except.ok [exUpdateRecord],
    zipFileName := "app_5_2024_full.zip",
    zip := Except.ok 1000,
    midFail := none,
    postFail := none }

theorem backupApp_archive_invariant_witness :
    (backupApp exEnvOne BackupType.full).1.file_path ≠ none ∧
    ((backupApp exEnvEmpty BackupType.full).1.file_path = none ∧
      RunEffect.archiveWrite ∉ (backupApp exEnvEmpty BackupType.full).2 ∧
      RunEffect.attachmentFetch ∉ (backupApp exEnvEmpty BackupType.full).2) :=
  ⟨(backupApp_archive_invariant exEnvOne BackupType.full).1 rfl 1 rfl (by norm_num),
   (backupApp_archive_invariant exEnvEmpty BackupType.full).2 rfl⟩

/-- Claim C6: an app with no recorded last backup time (no apps row, or
a row with a null baseline) makes a differential backup issue the very
same full-fetch request as a full backup, and the whole run behaves
identically to the full one — in particular no error is signalled. -/
theorem differential_first_backup_full_fetch (env : BackupEnv)
    (h : env.lastBackupRow = none ∨ env.lastBackupRow = some none) :
    recordsRequest BackupType.differential env.lastBackupRow =
      (FetchRequest.allRecords, none) ∧
    backupApp env BackupType.differential = backupApp env BackupType.full := by
  have hreq : recordsRequest BackupType.differential env.lastBackupRow =
      (FetchRequest.allRecords, none) := by
    rcases h with h | h <;> rw [h] <;> rfl
  refine ⟨hreq, ?_⟩
  unfold backupApp
  rw [hreq]
  rfl

theorem differential_first_backup_full_fetch_witness :
    recordsRequest BackupType.differential exEnvOne.lastBackupRow =
      (FetchRequest.allRecords, none) ∧
    backupApp exEnvOne BackupType.differential = backupApp exEnvOne BackupType.full :=
  differential_first_backup_full_fetch exEnvOne (Or.inl rfl)

theorem partitionForRestore_eq_spec (mapping : String → Option String)
    (hm : ∀ n s, mapping n = some s → s ≠ "") :
    ∀ (cs : List KRecord) (ns : List (Option String)), ns.length = cs.length →
    partitionForRestore mapping cs ns =
      ((ns.zip cs).filterMap fun p =>
        (p.1.bind mapping).map fun id => (id, p.2),
       (ns.zip cs).filterMap fun p =>
        match p.1.bind mapping with
        | some _ => none
        | none => some p.2) := by
  intro cs
  induction cs with
  | nil =>
    intro ns h
    have : ns = [] := List.length_eq_zero.mp h
    subst this
    rfl
  | cons rec cs ih =>
    intro ns h
    cases ns with
    | nil => simp at h
    | cons num ns' =>
      have h' : ns'.length = cs.length := by simpa using h
      have hrest := ih ns' h'
      cases num with
      | none =>
        simp [partitionForRestore, hrest, List.zip_cons_cons, List.filterMap_cons]
      | some n =>
        cases hmap : mapping n with
        | none =>
          simp [partitionForRestore, hrest, List.zip_cons_cons,
            List.filterMap_cons, hmap]
        | some id =>
          have hid : id ≠ "" := hm n id hmap
          simp [partitionForRestore, hrest, List.zip_cons_cons,
            List.filterMap_cons, hmap, hid]

/-- Claim C7: the partitions are exactly characterized — the update set
holds precisely the cleaned records whose derived key resolves through
the mapping (paired with the resolved live identifier), the add set
precisely the rest — and hence every record whose key resolves lands in
the update partition and every record with an unresolved or null key
lands in the add partition. -/
theorem restore_partition_placement (records : List KRecord)
    (mapping : String → Option String)
    (hm : ∀ n s, mapping n = some s → s ≠ "") :
    restorePartitions records mapping =
      ((records.map fun r => (deriveRecordNumber r, cleanRecordForRestore r)).filterMap
        fun p => (p.1.bind mapping).map fun id => (id, p.2),
       (records.map fun r => (deriveRecordNumber r, cleanRecordForRestore r)).filterMap
        fun p =>
          match p.1.bind mapping with
          | some _ => none
          | none => some p.2) ∧
    ∀ r, r ∈ records →
      (∀ id, (deriveRecordNumber r).bind mapping = some id →
        (id, cleanRecordForRestore r) ∈ (restorePartitions records mapping).1) ∧
      ((deriveRecordNumber r).bind mapping = none →
        cleanRecordForRestore r ∈ (restorePartitions records mapping).2) := by
  have hzip : (records.map deriveRecordNumber).zip (records.map cleanRecordForRestore) =
      records.map fun r => (deriveRecordNumber r, cleanRecordForRestore r) :=
    List.zip_map' deriveRecordNumber cleanRecordForRestore records
  have hchar := partitionForRestore_eq_spec mapping hm
    (records.map cleanRecordForRestore) (records.map deriveRecordNumber)
    (by simp)
  rw [hzip] at hchar
  have hchar' : restorePartitions records mapping = _ := hchar
  refine ⟨hchar', ?_⟩
  intro r hr
  constructor
  · intro id hid
    rw [hchar']
    refine List.mem_filterMap.mpr ⟨(deriveRecordNumber r, cleanRecordForRestore r), ?_, ?_⟩
    · exact List.mem_map_of_mem _ hr
    · simp [hid]
  · intro hid
    rw [hchar']
    refine List.mem_filterMap.mpr ⟨(deriveRecordNumber r, cleanRecordForRestore r), ?_, ?_⟩
    · exact List.mem_map_of_mem _ hr
    · simp [hid]

/-- Archived record with dollar-id 1 and a title field. -/
def exRec1 : KRecord :=
  [("$id", JsValue.obj [("type", JsValue.str "__ID__"), ("value", JsValue.str "1")]),
   ("Title", JsValue.obj
     [("type", JsValue.str "SINGLE_LINE_TEXT"), ("value", JsValue.str "a")])]

/-- Archived record with dollar-id 2 and a title field. -/
def exRec2 : KRecord :=
  [("$id", JsValue.obj [("type", JsValue.str "__ID__"), ("value", JsValue.str "2")]),
   ("Title", JsValue.obj
     [("type", JsValue.str "SINGLE_LINE_TEXT"), ("value", JsValue.str "b")])]

/-- A resolution mapping that resolves key 1 to live id 101 and nothing
else. -/
def exMapping : String → Option String :=
  fun n => if n = "1" then some "101" else none

theorem restore_partition_placement_witness :
    restorePartitions [exRec1, exRec2] exMapping =
      ([("101",
         [("Title", JsValue.obj
           [("type", JsValue.str "SINGLE_LINE_TEXT"), ("value", JsValue.str "a")])])],
       [[("Title", JsValue.obj
           [("type", JsValue.str "SINGLE_LINE_TEXT"), ("value", JsValue.str "b")])]]) := by
  have hm : ∀ n s, exMapping n = some s → s ≠ "" := by
    intro n s h
    unfold exMapping at h
    split at h
    · injection h with h2
      subst h2
      decide
    · exact Option.noConfusion h
  exact ((restore_partition_placement [exRec1, exRec2] exMapping hm).1).trans rfl
